import Mathlib

/-!
# Cortex — verification of the tool/agent subsystem and the chat page

Shallow embedding of the Cortex repository's agent subsystem (tool contract,
built-in tools, action parser, ReAct control loop) and of the frontend chat
page's `handleSend`/`clearChat` handlers.

The backend Python sources (`app/tools/*`, `app/agents/*`) are not present in
the repository snapshot; only the backend README documents them.  Those parts
are therefore modelled from the specification (each such definition carries a
doc comment starting with `Modelled from the spec:`).  The frontend handlers
are embedded directly from `src/frontend/app/chat/page.tsx`.
-/

namespace Cortex

/-! ## Data model: tool contract -/

/-- Modelled from the spec: the kind of a tool parameter
(`kind ∈ \x7bstring, number, boolean, object\x7d`, §3 ToolParameter). -/
inductive ParamType where
  | string
  | number
  | boolean
  | object
deriving DecidableEq, Repr

/-- Modelled from the spec: `ToolParameter = \x7bname, kind, description,
required\x7d` (§3); the backend source `app/tools/base_tool.py` is absent from
the snapshot (its shape is echoed by the README's custom-tool example). -/
structure ToolParameter where
  name : String
  type : ParamType
  description : String
  required : Bool
deriving DecidableEq, Repr

/-- Modelled from the spec: `ToolResult = \x7bsuccess, result: optional payload,
error: optional message\x7d` (§3); payloads are rendered to text. -/
structure ToolResult where
  success : Bool
  result : Option String
  error : Option String
deriving DecidableEq, Repr

/-- Modelled from the spec: a JSON-like argument value as produced by the
action parser and consumed by tool parameter validation.  Objects are kept
shallow (string fields) — no claim inspects nested objects. -/
inductive JsonVal where
  | str (s : String)
  | num (n : Int)
  | boolean (b : Bool)
  | obj (fields : List (String × String))
deriving DecidableEq, Repr

/-- Modelled from the spec: type-compatibility of an argument value with a
declared parameter kind (§4.1 "present and type-compatible"). -/
def JsonVal.matchesType : JsonVal → ParamType → Bool
  | .str _, .string => true
  | .num _, .number => true
  | .boolean _, .boolean => true
  | .obj _, .object => true
  | _, _ => false

/-- Modelled from the spec: a tool behind the Tool Contract (§4.1): a unique
name, a description, declared parameters, and the tool-specific work `run`
(the body `execute` delegates to after validation). -/
structure Tool where
  name : String
  description : String
  params : List ToolParameter
  run : List (String × JsonVal) → ToolResult

/-- Modelled from the spec: a declared parameter is violated by an argument
map when it is `required` and the map either misses it or supplies a value
that is not type-compatible (§4.1 validation). -/
def paramViolated (args : List (String × JsonVal)) (p : ToolParameter) : Bool :=
  p.required &&
    match args.lookup p.name with
    | none => true
    | some v => !(v.matchesType p.type)

/-- Modelled from the spec: the first declared `required` parameter that is
missing from the argument map or type-incompatible (§4.1 validation). -/
def findInvalidParam (ps : List ToolParameter) (args : List (String × JsonVal)) :
    Option String :=
  (ps.find? (paramViolated args)).map fun p => p.name

/-- Modelled from the spec: §4.1 — `execute` validates all `required`
parameters before performing work; on a missing/invalid parameter it returns
`ToolResult\x7bsuccess:false, error: "<parameter> is required"\x7d` rather than
raising, and only otherwise dispatches to the tool's work. -/
def Tool.execute (t : Tool) (args : List (String × JsonVal)) : ToolResult :=
  match findInvalidParam t.params args with
  | some pname => { success := false, result := none, error := some (pname ++ " is required") }
  | none => t.run args

/-! ## Built-in tool: arithmetic evaluator (calculator) -/

/-- Modelled from the spec: the calculator's identifier allow-list — named
functions `sqrt, sin, cos, tan, log, exp` and constants `pi, e` (§4.2). -/
def allowedIdents : List String :=
  ["sqrt", "sin", "cos", "tan", "log", "exp", "pi", "e"]

/-- Whether a character may occur in an identifier (letters and underscore,
as in Python identifiers; digits do not start the runs scanned below because
digit runs are consumed as number literals first). -/
def isIdentChar (c : Char) : Bool :=
  c.isAlpha || c = '_'

/-- Scan a character list into the identifiers it contains: the maximal runs
of identifier characters.  This is defined on the raw text so that "contains
an identifier" makes sense even for expressions the grammar rejects. -/
def identsOfAux : Nat → List Char → List String
  | 0, _ => []
  | _, [] => []
  | fuel + 1, c :: cs =>
    if isIdentChar c then
      let run := (c :: cs).takeWhile isIdentChar
      let rest := (c :: cs).dropWhile isIdentChar
      String.mk run :: identsOfAux fuel rest
    else
      identsOfAux fuel cs

/-- The identifiers occurring in an expression string. -/
def identsOf (s : String) : List String :=
  identsOfAux s.length s.data

/-- Tokens of the restricted arithmetic grammar (§4.2): integer literals,
identifiers, `+ - * / **`, parentheses. -/
inductive CalcTok where
  | num (n : Nat)
  | ident (s : String)
  | plus
  | minus
  | star
  | slash
  | dstar
  | lparen
  | rparen
deriving DecidableEq, Repr

/-- Numeric value of a list of decimal digit characters. -/
def digitsToNat (cs : List Char) : Nat :=
  cs.foldl (fun acc c => 10 * acc + (c.toNat - '0'.toNat)) 0

/-- Modelled from the spec: tokenizer for the restricted grammar.  Unknown
characters make tokenization fail (the expression is rejected). -/
def calcTokenizeAux : Nat → List Char → Option (List CalcTok)
  | 0, [] => some []
  | 0, _ :: _ => none
  | _ + 1, [] => some []
  | fuel + 1, c :: cs =>
    if c = ' ' || c = '\t' || c = '\n' then
      calcTokenizeAux fuel cs
    else if c.isDigit then
      let digits := (c :: cs).takeWhile Char.isDigit
      let rest := (c :: cs).dropWhile Char.isDigit
      (calcTokenizeAux fuel rest).map fun ts =>
        CalcTok.num (digitsToNat digits) :: ts
    else if isIdentChar c then
      let run := (c :: cs).takeWhile isIdentChar
      let rest := (c :: cs).dropWhile isIdentChar
      (calcTokenizeAux fuel rest).map fun ts => CalcTok.ident (String.mk run) :: ts
    else if c = '*' then
      match cs with
      | '*' :: cs' => (calcTokenizeAux fuel cs').map fun ts => CalcTok.dstar :: ts
      | _ => (calcTokenizeAux fuel cs).map fun ts => CalcTok.star :: ts
    else if c = '+' then (calcTokenizeAux fuel cs).map fun ts => CalcTok.plus :: ts
    else if c = '-' then (calcTokenizeAux fuel cs).map fun ts => CalcTok.minus :: ts
    else if c = '/' then (calcTokenizeAux fuel cs).map fun ts => CalcTok.slash :: ts
    else if c = '(' then (calcTokenizeAux fuel cs).map fun ts => CalcTok.lparen :: ts
    else if c = ')' then (calcTokenizeAux fuel cs).map fun ts => CalcTok.rparen :: ts
    else none

/-- Tokenize an expression string. -/
def calcTokenize (s : String) : Option (List CalcTok) :=
  calcTokenizeAux s.length s.data

/-- Abstract syntax of the restricted arithmetic grammar (§4.2):
`+ - * / **`, named function calls, constants, integer literals. -/
inductive CalcExpr where
  | num (n : Nat)
  | const (name : String)
  | call (f : String) (arg : CalcExpr)
  | neg (a : CalcExpr)
  | add (a b : CalcExpr)
  | sub (a b : CalcExpr)
  | mul (a b : CalcExpr)
  | div (a b : CalcExpr)
  | pow (a b : CalcExpr)
deriving DecidableEq, Repr

mutual

/-- Additive level: a term followed by `+`/`-` chains. -/
def parseAdd : Nat → List CalcTok → Option (CalcExpr × List CalcTok)
  | 0, _ => none
  | fuel + 1, ts => do
    let (a, rest) ← parseMul fuel ts
    parseAddRest fuel a rest

/-- Remaining `+ term` / `- term` chain, left-associated. -/
def parseAddRest : Nat → CalcExpr → List CalcTok → Option (CalcExpr × List CalcTok)
  | 0, _, _ => none
  | fuel + 1, acc, ts =>
    match ts with
    | CalcTok.plus :: ts' => do
      let (b, rest) ← parseMul fuel ts'
      parseAddRest fuel (CalcExpr.add acc b) rest
    | CalcTok.minus :: ts' => do
      let (b, rest) ← parseMul fuel ts'
      parseAddRest fuel (CalcExpr.sub acc b) rest
    | _ => some (acc, ts)

/-- Multiplicative level: a power followed by `*`/`/` chains. -/
def parseMul : Nat → List CalcTok → Option (CalcExpr × List CalcTok)
  | 0, _ => none
  | fuel + 1, ts => do
    let (a, rest) ← parsePow fuel ts
    parseMulRest fuel a rest

/-- Remaining `* factor` / `/ factor` chain, left-associated. -/
def parseMulRest : Nat → CalcExpr → List CalcTok → Option (CalcExpr × List CalcTok)
  | 0, _, _ => none
  | fuel + 1, acc, ts =>
    match ts with
    | CalcTok.star :: ts' => do
      let (b, rest) ← parsePow fuel ts'
      parseMulRest fuel (CalcExpr.mul acc b) rest
    | CalcTok.slash :: ts' => do
      let (b, rest) ← parsePow fuel ts'
      parseMulRest fuel (CalcExpr.div acc b) rest
    | _ => some (acc, ts)

/-- Power level, right-associative `**`. -/
def parsePow : Nat → List CalcTok → Option (CalcExpr × List CalcTok)
  | 0, _ => none
  | fuel + 1, ts => do
    let (a, rest) ← parseAtom fuel ts
    match rest with
    | CalcTok.dstar :: rest' => do
      let (b, rest'') ← parsePow fuel rest'
      pure (CalcExpr.pow a b, rest'')
    | _ => pure (a, rest)

/-- Atom: number, constant, function call, parenthesized expression, or
unary minus. -/
def parseAtom : Nat → List CalcTok → Option (CalcExpr × List CalcTok)
  | 0, _ => none
  | fuel + 1, ts =>
    match ts with
    | CalcTok.num n :: rest => some (CalcExpr.num n, rest)
    | CalcTok.minus :: rest => do
      let (a, rest') ← parseAtom fuel rest
      pure (CalcExpr.neg a, rest')
    | CalcTok.ident f :: CalcTok.lparen :: rest => do
      let (a, rest') ← parseAdd fuel rest
      match rest' with
      | CalcTok.rparen :: rest'' => pure (CalcExpr.call f a, rest'')
      | _ => none
    | CalcTok.ident f :: rest => some (CalcExpr.const f, rest)
    | CalcTok.lparen :: rest => do
      let (a, rest') ← parseAdd fuel rest
      match rest' with
      | CalcTok.rparen :: rest'' => pure (a, rest'')
      | _ => none
    | _ => none

end

/-- Parse a full token list as one expression (no trailing tokens). -/
def parseCalc (ts : List CalcTok) : Option CalcExpr :=
  match parseAdd (2 * ts.length + 2) ts with
  | some (a, []) => some a
  | _ => none

/-- Euclid's algorithm with explicit fuel (kernel-reducible gcd). -/
def natGcdAux : Nat → Nat → Nat → Nat
  | 0, _, n => n
  | _ + 1, 0, n => n
  | fuel + 1, m, n => natGcdAux fuel (n % m) m

/-- Greatest common divisor (fuelled, agrees with `Nat.gcd`). -/
def natGcd (m n : Nat) : Nat :=
  natGcdAux (m + n + 1) m n

/-- An exact rational value: normalized numerator/denominator pair.  The
calculator evaluates exactly (SymPy-style); all operations below keep the
value normalized via `CalcVal.normalize`. -/
structure CalcVal where
  num : Int
  den : Nat
deriving DecidableEq, Repr

/-- Normalize `n / d` (with `d > 0` expected): divide out the gcd. -/
def CalcVal.normalize (n : Int) (d : Nat) : CalcVal :=
  if d = 0 then ⟨0, 0⟩
  else
    let g := natGcd n.natAbs d
    if 0 ≤ n then ⟨Int.ofNat (n.natAbs / g), d / g⟩
    else ⟨-Int.ofNat (n.natAbs / g), d / g⟩

/-- Embed an integer. -/
def CalcVal.ofInt (n : Int) : CalcVal := ⟨n, 1⟩

def CalcVal.add (a b : CalcVal) : CalcVal :=
  CalcVal.normalize (a.num * (b.den : Int) + b.num * (a.den : Int)) (a.den * b.den)

def CalcVal.sub (a b : CalcVal) : CalcVal :=
  CalcVal.normalize (a.num * (b.den : Int) - b.num * (a.den : Int)) (a.den * b.den)

def CalcVal.neg (a : CalcVal) : CalcVal := ⟨-a.num, a.den⟩

def CalcVal.mul (a b : CalcVal) : CalcVal :=
  CalcVal.normalize (a.num * b.num) (a.den * b.den)

/-- Exact division `a / b` (caller rejects `b = 0`). -/
def CalcVal.div (a b : CalcVal) : CalcVal :=
  CalcVal.normalize ((if b.num < 0 then -1 else 1) * a.num * (b.den : Int))
    (a.den * b.num.natAbs)

/-- Natural-number power by structural recursion. -/
def CalcVal.npow (a : CalcVal) : Nat → CalcVal
  | 0 => CalcVal.ofInt 1
  | n + 1 => (a.npow n).mul a

/-- Exact square root of a natural number, when it is a perfect square. -/
def natSqrtOpt (n : Nat) : Option Nat :=
  (List.range (n + 1)).find? fun r => r * r = n

/-- Exact square root, defined when the value is a perfect square of a
natural number (the evaluator is exact; `sqrt(144) = 12`). -/
def ratSqrt (q : CalcVal) : Option CalcVal :=
  if q.den = 1 ∧ 0 ≤ q.num then
    (natSqrtOpt q.num.toNat).map fun r => CalcVal.ofInt (Int.ofNat r)
  else none

/-- Modelled from the spec: exact evaluation (§4.2 "simplest exact or
decimal string form").  The transcendental functions and constants
(`sin, cos, tan, log, exp, pi, e`) have no exact rational value, so this model
evaluates them (and non-exact cases such as a fractional exponent or a
non-square `sqrt` argument) to `none`, which the tool reports as a failed
evaluation; no claim evaluates them. -/
def evalCalc : CalcExpr → Option CalcVal
  | .num n => some (CalcVal.ofInt (Int.ofNat n))
  | .const _ => none
  | .call f a => do
    let v ← evalCalc a
    if f = "sqrt" then ratSqrt v else none
  | .neg a => do
    let v ← evalCalc a
    pure v.neg
  | .add a b => do
    let va ← evalCalc a
    let vb ← evalCalc b
    pure (va.add vb)
  | .sub a b => do
    let va ← evalCalc a
    let vb ← evalCalc b
    pure (va.sub vb)
  | .mul a b => do
    let va ← evalCalc a
    let vb ← evalCalc b
    pure (va.mul vb)
  | .div a b => do
    let va ← evalCalc a
    let vb ← evalCalc b
    if vb.num = 0 then none else pure (va.div vb)
  | .pow a b => do
    let va ← evalCalc a
    let vb ← evalCalc b
    if vb.den = 1 ∧ 0 ≤ vb.num then pure (va.npow vb.num.toNat) else none

/-- Render an exact rational result in its simplest string form: an integer
when the denominator is 1, a fraction otherwise (§4.2). -/
def renderRat (q : CalcVal) : String :=
  if q.den = 1 then toString q.num else toString q.num ++ "/" ++ toString q.den

/-- Modelled from the spec: the calculator's evaluation pipeline — first
reject any expression containing an identifier outside the allow-list
(§4.2 "Must reject any expression containing identifiers outside an
allow-list (no arbitrary code execution)"); only then tokenize, parse and
evaluate. -/
def calcEval (expr : String) : ToolResult :=
  if (identsOf expr).all (fun id => allowedIdents.contains id) then
    match calcTokenize expr with
    | none => { success := false, result := none, error := some "Invalid expression" }
    | some ts =>
      match parseCalc ts with
      | none => { success := false, result := none, error := some "Invalid expression" }
      | some a =>
        match evalCalc a with
        | none => { success := false, result := none, error := some "Could not evaluate expression" }
        | some v => { success := true, result := some (renderRat v), error := none }
  else
    { success := false, result := none, error := some "Expression contains disallowed identifiers" }

/-- Modelled from the spec: the calculator tool — one required string
parameter `expression` (README: `parameters.expression`, required). -/
def calculatorTool : Tool :=
  { name := "calculator"
    description := "Evaluate mathematical expressions"
    params := [{ name := "expression", type := ParamType.string,
                 description := "Mathematical expression to evaluate", required := true }]
    run := fun args =>
      match args.lookup "expression" with
      | some (JsonVal.str s) => calcEval s
      | _ => { success := false, result := none, error := some "expression is required" } }

/-! ## Action parser -/

/-- Split a character list at the first occurrence of `pat`: returns the
text before the marker and the text after it. -/
def findMarkerAux (pat : List Char) : Nat → List Char → List Char →
    Option (List Char × List Char)
  | 0, _, _ => none
  | fuel + 1, acc, cs =>
    if pat.isPrefixOf cs then some (acc.reverse, cs.drop pat.length)
    else
      match cs with
      | [] => none
      | c :: rest => findMarkerAux pat fuel (c :: acc) rest

/-- Split a string at the first occurrence of the marker `pat`. -/
def findMarker (pat : String) (s : String) : Option (String × String) :=
  (findMarkerAux pat.data (s.length + 1) [] s.data).map fun p =>
    (String.mk p.1, String.mk p.2)

/-- Whether the marker `m` occurs as a substring of `t`. -/
def hasMarker (t m : String) : Bool :=
  (findMarker m t).isSome

/-- Whitespace for trimming (spaces, tabs, newlines). -/
def isWsChar (c : Char) : Bool :=
  c = ' ' || c = '\t' || c = '\n' || c = '\r'

/-- Trim surrounding whitespace (kernel-reducible `String.trim`). -/
def strTrim (s : String) : String :=
  String.mk (((s.data.dropWhile isWsChar).reverse.dropWhile isWsChar).reverse)

/-- Read a JSON string literal after its opening quote; returns the content
and the rest.  Escapes are not interpreted (no claim needs them) — the
literal ends at the next quote. -/
def readStrLit : List Char → List Char → Option (String × List Char)
  | [], _ => none
  | c :: rest, acc =>
    if c = '\x22' then some (String.mk acc.reverse, rest)
    else readStrLit rest (c :: acc)

/-- Is a character JSON whitespace? -/
def isJsonWs (c : Char) : Bool :=
  c = ' ' || c = '\t' || c = '\n' || c = '\r'

/-- Parse the members of a JSON object (after the opening brace): a possibly
empty comma-separated list of `"key": "value"` pairs followed by the closing
brace.  Values are string literals (see `parseJsonObj`). -/
def parseJsonPairs : Nat → List Char → Option (List (String × JsonVal))
  | 0, _ => none
  | fuel + 1, cs =>
    match cs.dropWhile isJsonWs with
    | '\x7d' :: _ => some []
    | '\x22' :: rest => do
      let (key, rest1) ← readStrLit rest []
      match rest1.dropWhile isJsonWs with
      | ':' :: rest2 =>
        match rest2.dropWhile isJsonWs with
        | '\x22' :: rest3 => do
          let (val, rest4) ← readStrLit rest3 []
          match rest4.dropWhile isJsonWs with
          | ',' :: rest5 => do
            let pairs ← parseJsonPairs fuel rest5
            pure ((key, JsonVal.str val) :: pairs)
          | '\x7d' :: _ => pure [(key, JsonVal.str val)]
          | _ => none
        | _ => none
      | _ => none
    | _ => none

/-- Modelled from the spec: structured interpretation of an `Action Input`
remainder as a key→value map (§4.3).  The model reads JSON objects with
string values — the shape every example in the spec and the README uses;
any other shape fails structured interpretation and takes the positional
fallback, exactly as malformed data does. -/
def parseJsonObj (s : String) : Option (List (String × JsonVal)) :=
  match s.data.dropWhile isJsonWs with
  | '\x7b' :: rest => parseJsonPairs (rest.length + 1) rest
  | _ => none

/-- One parsed reasoning turn: `\x7bthought, action, action_input\x7d` (§4.3). -/
structure ParsedAction where
  thought : String
  action : String
  input : List (String × JsonVal)
deriving DecidableEq, Repr

/-- The first line of a string. -/
def firstLine (s : String) : String :=
  String.mk (s.data.takeWhile fun c => c ≠ '\n')

/-- Thought text: what precedes the first marker, with a leading `Thought:`
marker stripped. -/
def extractThought (pre : String) : String :=
  match findMarker "Thought:" pre with
  | some (_, rest) => strTrim rest
  | none => strTrim pre

/-- Modelled from the spec: the action parser (§4.3).  Scan for the first
`Action:` marker (later markers are not honored — tie-break policy), read the
tool name token, then the `Action Input:` remainder: structured JSON
interpretation first, falling back to binding the entire remainder to the
tool's first required parameter name (`firstReq`).  With no `Action:` marker
but a `Finish:` marker, the turn is terminal with `action = "finish"`.  With
neither marker, the parse fails (`none` — a recoverable result, not an
exception). -/
def parseAction (firstReq : String → Option String) (text : String) :
    Option ParsedAction :=
  match findMarker "Action:" text with
  | some (pre, afterA) =>
    let thought := extractThought pre
    match findMarker "Action Input:" afterA with
    | some (namePart, inputPart) =>
      let name := strTrim (firstLine namePart)
      let rawInput := strTrim inputPart
      match parseJsonObj rawInput with
      | some m => some ⟨thought, name, m⟩
      | none =>
        match firstReq name with
        | some p => some ⟨thought, name, [(p, JsonVal.str rawInput)]⟩
        | none => some ⟨thought, name, []⟩
    | none => some ⟨thought, strTrim (firstLine afterA), []⟩
  | none =>
    match findMarker "Finish:" text with
    | some (pre, rest) =>
      some ⟨extractThought pre, "finish", [("answer", JsonVal.str (strTrim rest))]⟩
    | none => none

/-! ## Built-in tool: sandboxed code execution (python_repl) -/

/-- The error message a timed-out execution reports (README: "Timeout
protection (10 seconds)"). -/
def timeoutMsg : String := "Execution timed out after 10 seconds"

/-- Modelled from the spec: the sandboxed code-execution tool (§4.2).  The
sandboxed interpreter itself cannot be embedded shallowly, so it is
abstracted as a step-indexed run function `interp`: `interp code n` is
`some output` when the snippet `code` halts within `n` interpreter steps
(yielding its captured stdout/stderr text) and `none` otherwise.  The hard
wall-clock timeout is the step budget `timeoutFuel`: a snippet that has not
finished within the budget is forcibly abandoned and a timeout `ToolResult`
is returned — the call itself always returns. -/
def pythonReplTool (interp : String → Nat → Option String) (timeoutFuel : Nat) : Tool :=
  { name := "python_repl"
    description := "Execute Python code in a sandboxed environment"
    params := [{ name := "code", type := ParamType.string,
                 description := "Python code to execute", required := true }]
    run := fun args =>
      match args.lookup "code" with
      | some (JsonVal.str c) =>
        match interp c timeoutFuel with
        | some out => { success := true, result := some out, error := none }
        | none => { success := false, result := none, error := some timeoutMsg }
      | _ => { success := false, result := none, error := some "code is required" } }

/-! ## Agent data model and control loop -/

/-- Step status (§3 AgentStep): `thinking, acting, observing, completed,
failed`. -/
inductive StepStatus where
  | thinking
  | acting
  | observing
  | completed
  | failed
deriving DecidableEq, Repr

/-- Modelled from the spec: one step of the execution trace (§3 AgentStep),
shaped as in the README's `/api/agents/execute` response. -/
structure AgentStep where
  step_number : Nat
  thought : String
  action : Option String
  action_input : Option (List (String × JsonVal))
  observation : Option String
  status : StepStatus
deriving DecidableEq, Repr

/-- Modelled from the spec: the terminal artifact of one run (§3
AgentRunResult).  `metadata` is the string-keyed map of the README's
response example (part_000 lines 676–680): keys `iterations` and `goal`. -/
structure AgentRunResult where
  success : Bool
  final_answer : Option String
  steps : List AgentStep
  metadata : List (String × String)
deriving DecidableEq, Repr

/-- Registry lookup (§4.1 `get(name) -> tool | not found`). -/
def registryGet (reg : List Tool) (name : String) : Option Tool :=
  reg.find? fun t => t.name = name

/-- The first required parameter name of a registered tool — the binding
target of the parser's positional fallback (§4.3). -/
def regFirstReq (reg : List Tool) (name : String) : Option String :=
  (registryGet reg name).bind fun t =>
    (t.params.find? fun p => p.required).map fun p => p.name

/-- Run configuration: the per-run iteration budget and the bounded per-step
parse-retry allowance (§4.4). -/
structure LoopCfg where
  maxIterations : Nat
  parseRetries : Nat
deriving DecidableEq, Repr

/-- The outcome of one planning call including its bounded retries. -/
inductive PlanOutcome where
  | parsed (a : ParsedAction) (rest : List String)
  | parseFailed (rest : List String)
  | modelError
deriving Repr

/-- Modelled from the spec: one planning phase (§4.4).  The model-inference
collaborator is abstracted as the queue of reasoning turns it would produce,
one per call; an exhausted queue is a `ModelInferenceError` (fatal).  A turn
that fails to parse is retried — re-prompting consumes the next turn —
bounded by the retry fuel; when retries are exhausted the parse failure is
reported to the loop. -/
def planStep (reg : List Tool) : Nat → List String → PlanOutcome
  | _, [] => .modelError
  | 0, t :: rest =>
    match parseAction (regFirstReq reg) t with
    | some a => .parsed a rest
    | none => .parseFailed rest
  | fuel + 1, t :: rest =>
    match parseAction (regFirstReq reg) t with
    | some a => .parsed a rest
    | none => planStep reg fuel rest

/-- The final answer carried by a `finish` action's input. -/
def answerOf (input : List (String × JsonVal)) : String :=
  match input.lookup "answer" with
  | some (JsonVal.str s) => s
  | _ => ""

/-- Format a tool result as the observation fed back to the model
(README trace: "Success: 120"). -/
def formatObservation (r : ToolResult) : String :=
  if r.success then "Success: " ++ r.result.getD ""
  else "Error: " ++ r.error.getD "unknown error"

/-- The synthesized message noting the iteration budget was exhausted
(§4.4 terminal failure). -/
def budgetMsg : String := " [stopped: iteration budget exhausted]"

/-- On budget exhaustion the last recorded step is marked `failed` and the
synthesized budget message is appended to its observation (§4.4: run ends
with `success = false`, last step's `status = failed`). -/
def markLastFailed : List AgentStep → List AgentStep
  | [] => []
  | [s] =>
    [{ s with
       status := StepStatus.failed
       observation := some (s.observation.getD "" ++ budgetMsg) }]
  | s :: rest => s :: markLastFailed rest

/-- The run metadata map, as in the README response example:
`\x7b"iterations": …, "goal": …\x7d`. -/
def mkMeta (iterations : Nat) (goal : String) : List (String × String) :=
  [("iterations", toString iterations), ("goal", goal)]

/-- Modelled from the spec: the ReAct control loop (§4.4), by recursion on
the remaining iteration budget.  Each iteration: one planning phase (with
bounded parse retries), then either `finish` (terminate, `success = true`,
step recorded `completed`), a tool dispatch whose formatted result becomes
the step's observation (`observing`, loop continues — tool-not-found and
tool failure included, they are recoverable observations), or a
parse-retries-exhausted failure (terminal failed step).  `done` counts the
iterations performed and `steps` accumulates the trace. -/
def runLoop (reg : List Tool) (cfg : LoopCfg) (goal : String) :
    Nat → List String → Nat → List AgentStep → AgentRunResult
  | 0, _, done, steps =>
    { success := false, final_answer := none, steps := markLastFailed steps,
      metadata := mkMeta done goal }
  | fuel + 1, turns, done, steps =>
    match planStep reg cfg.parseRetries turns with
    | .modelError =>
      { success := false, final_answer := none, steps := steps,
        metadata := mkMeta done goal }
    | .parseFailed _ =>
      let st : AgentStep :=
        { step_number := done + 1, thought := "", action := none,
          action_input := none,
          observation := some "Could not parse a valid action from the model output",
          status := StepStatus.failed }
      { success := false, final_answer := none, steps := steps ++ [st],
        metadata := mkMeta (done + 1) goal }
    | .parsed a rest =>
      if a.action = "finish" then
        let st : AgentStep :=
          { step_number := done + 1, thought := a.thought,
            action := some "finish", action_input := some a.input,
            observation := none, status := StepStatus.completed }
        { success := true, final_answer := some (answerOf a.input),
          steps := steps ++ [st], metadata := mkMeta (done + 1) goal }
      else
        let obs :=
          match registryGet reg a.action with
          | none => "Error: Tool not found: " ++ a.action
          | some t => formatObservation (t.execute a.input)
        let st : AgentStep :=
          { step_number := done + 1, thought := a.thought,
            action := some a.action, action_input := some a.input,
            observation := some obs, status := StepStatus.observing }
        runLoop reg cfg goal fuel rest (done + 1) (steps ++ [st])

/-- Modelled from the spec: one agent run (§4.4, §6 `execute`): start with an
empty trace and the full iteration budget. -/
def runAgent (reg : List Tool) (cfg : LoopCfg) (goal : String)
    (turns : List String) : AgentRunResult :=
  runLoop reg cfg goal cfg.maxIterations turns 0 []

/-! ## Frontend chat page (`src/frontend/app/chat/page.tsx`) -/

/-- A frontend agent step (`app/types/chat.ts`, interface `AgentStep`);
statuses are plain strings there. -/
structure FrontAgentStep where
  step_number : Nat
  thought : String
  action : Option String
  observation : Option String
  status : String
deriving DecidableEq, Repr

/-- A chat message (`app/types/chat.ts`, interface `Message`). -/
structure ChatMessage where
  role : String
  content : String
  timestamp : Option String
  agent_steps : Option (List FrontAgentStep)
deriving DecidableEq, Repr

/-- A chat response from the backend (`app/types/chat.ts`,
interface `ChatResponse`, the fields `handleSend` reads). -/
structure ChatResponse where
  message : ChatMessage
  agent_steps : Option (List FrontAgentStep)
deriving DecidableEq, Repr

/-- A sidebar conversation (`page.tsx` lines 10–15); `Date` is modelled as an
abstract tick. -/
structure Conversation where
  id : String
  title : String
  lastMessage : String
  timestamp : Nat
deriving DecidableEq, Repr

/-- The chat page's React state (`page.tsx` lines 19–34). -/
structure ChatPageState where
  messages : List ChatMessage
  isLoading : Bool
  selectedModel : String
  enableAgent : Bool
  isConnected : Bool
  sidebarOpen : Bool
  conversations : List Conversation
  activeConversation : String
deriving DecidableEq, Repr

/-- Which API client entry point a submission invoked
(`apiClient.chat` vs `apiClient.chatStream`). -/
inductive ApiCall where
  | chatCall
  | chatStreamCall
deriving DecidableEq, Repr

/-- The backend behaviour visible to one `handleSend` invocation: what
`apiClient.chat` would return (or throw), and the chunks
`apiClient.chatStream` would yield. -/
structure BackendBehavior where
  chatResult : Except String ChatResponse
  streamChunks : List String
deriving Repr

/-- The streaming branch's accumulated content (`page.tsx` lines 102–127):
the placeholder text until the first chunk arrives, then the concatenation
of all chunks. -/
def streamedContent (chunks : List String) : String :=
  match chunks with
  | [] => "Thinking..."
  | c :: cs => cs.foldl (fun acc x => acc ++ x) c

/-- `handleSend` (`page.tsx` lines 63–155): append the user message, update
the active conversation's `lastMessage`/`timestamp`/`title`, then either
stream (agent disabled) or call the non-streaming chat endpoint once (agent
enabled) and attach the returned `agent_steps` to the assistant message; a
thrown error becomes an error message.  `isLoading` ends up `false` via the
`finally` block.  Returns the new state and the API calls made. -/
def handleSend (st : ChatPageState) (content : String) (now : String)
    (tick : Nat) (backend : BackendBehavior) : ChatPageState × List ApiCall :=
  let userMessage : ChatMessage :=
    { role := "user", content := content, timestamp := some now, agent_steps := none }
  let msgs1 := st.messages ++ [userMessage]
  let convs :=
    st.conversations.map fun conv =>
      if conv.id = st.activeConversation then
        { conv with
          lastMessage := (content.data.take 50).asString
          timestamp := tick
          title := if st.messages.length = 0 then (content.data.take 30).asString
                   else conv.title }
      else conv
  let useStreaming := !st.enableAgent
  if useStreaming then
    let assistantMessage : ChatMessage :=
      { role := "assistant", content := streamedContent backend.streamChunks,
        timestamp := some now, agent_steps := none }
    ({ st with
       messages := msgs1 ++ [assistantMessage]
       conversations := convs
       isLoading := false },
     [ApiCall.chatStreamCall])
  else
    match backend.chatResult with
    | Except.ok response =>
      let assistantMessage : ChatMessage :=
        { response.message with
          timestamp := some now
          agent_steps := response.agent_steps }
      ({ st with
         messages := msgs1 ++ [assistantMessage]
         conversations := convs
         isLoading := false },
       [ApiCall.chatCall])
    | Except.error e =>
      let errorMessage : ChatMessage :=
        { role := "assistant", content := "Error: " ++ e,
          timestamp := some now, agent_steps := none }
      ({ st with
         messages := msgs1 ++ [errorMessage]
         conversations := convs
         isLoading := false },
       [ApiCall.chatCall])

/-- `clearChat` (`page.tsx` lines 172–185): empty the message list and reset
the active conversation's `title` and `lastMessage` to their initial
values; everything else is untouched. -/
def clearChat (st : ChatPageState) : ChatPageState :=
  { st with
    messages := []
    conversations :=
      st.conversations.map fun conv =>
        if conv.id = st.activeConversation then
          { conv with title := "New Conversation", lastMessage := "Start chatting..." }
        else conv }

/-! ## Concrete fixtures (used by closed witness statements) -/

/-- An interpreter behaviour under which every snippet diverges — the
abstraction of a snippet stuck in an infinite loop. -/
def loopInterp : String → Nat → Option String := fun _ _ => none

/-- A registry holding the sandboxed execution tool over `loopInterp`. -/
def replDemoReg : List Tool := [pythonReplTool loopInterp 10]

/-- A model turn invoking `python_repl` on an infinite loop. -/
def replTurn : String :=
  "Thought: run\nAction: python_repl\nAction Input: \x7b\x22code\x22: \x22while True: pass\x22\x7d"

/-- A model turn finishing with the answer `done`. -/
def finishTurn : String :=
  "Thought: done\nAction: finish\nAction Input: \x7b\x22answer\x22: \x22done\x22\x7d"

/-- The initial sidebar conversation (`page.tsx` lines 26–33). -/
def demoConversation : Conversation :=
  { id := "1", title := "New Conversation", lastMessage := "Start chatting...",
    timestamp := 0 }

/-- A second, inactive conversation. -/
def otherConversation : Conversation :=
  { id := "2", title := "Other", lastMessage := "hello", timestamp := 5 }

/-- A chat page state with the agent toggle enabled. -/
def demoState : ChatPageState :=
  { messages := [], isLoading := false, selectedModel := "m1",
    enableAgent := true, isConnected := true, sidebarOpen := true,
    conversations := [demoConversation, otherConversation],
    activeConversation := "1" }

/-- A backend response carrying agent steps. -/
def demoResponse : ChatResponse :=
  { message := { role := "assistant", content := "1024", timestamp := none,
                 agent_steps := none },
    agent_steps := some [{ step_number := 1, thought := "t", action := some "finish",
                           observation := none, status := "completed" }] }

/-- A backend behaviour whose non-streaming call succeeds. -/
def demoBackend : BackendBehavior :=
  { chatResult := Except.ok demoResponse, streamChunks := [] }

/-! ## Helper lemmas -/

theorem markLastFailed_length (l : List AgentStep) :
    (markLastFailed l).length = l.length := by
  induction l with
  | nil => rfl
  | cons s rest ih =>
    cases rest with
    | nil => rfl
    | cons s' rest' => simp [markLastFailed] at ih ⊢; exact ih

theorem planStep_of_parsed (reg : List Tool) (t : String) (rest : List String)
    (a : ParsedAction) (retries : Nat)
    (h : parseAction (regFirstReq reg) t = some a) :
    planStep reg retries (t :: rest) = PlanOutcome.parsed a rest := by
  cases retries <;> simp [planStep, h]

theorem runLoop_length (reg : List Tool) (cfg : LoopCfg) (goal : String) :
    ∀ (fuel : Nat) (turns : List String) (done : Nat) (steps : List AgentStep),
    (runLoop reg cfg goal fuel turns done steps).steps.length ≤ steps.length + fuel := by
  intro fuel
  induction fuel with
  | zero =>
    intro turns done steps
    simp [runLoop, markLastFailed_length]
  | succ n ih =>
    intro turns done steps
    rw [runLoop]
    cases hp : planStep reg cfg.parseRetries turns with
    | modelError => simp; try omega
    | parseFailed rest => simp; try omega
    | parsed a rest =>
      by_cases hf : a.action = "finish"
      · simp [hf]; try omega
      · simp only [hf, if_false]
        calc (runLoop reg cfg goal n rest (done + 1)
                (steps ++ [_])).steps.length ≤ (steps ++ [_]).length + n := ih _ _ _
          _ ≤ steps.length + (n + 1) := by simp; omega

theorem runLoop_metadata (reg : List Tool) (cfg : LoopCfg) (goal : String) :
    ∀ (fuel : Nat) (turns : List String) (done : Nat) (steps : List AgentStep),
    done = steps.length →
    (runLoop reg cfg goal fuel turns done steps).metadata =
      mkMeta (runLoop reg cfg goal fuel turns done steps).steps.length goal := by
  intro fuel
  induction fuel with
  | zero =>
    intro turns done steps hd
    simp [runLoop, markLastFailed_length, hd]
  | succ n ih =>
    intro turns done steps hd
    rw [runLoop]
    cases hp : planStep reg cfg.parseRetries turns with
    | modelError => simp [hd]
    | parseFailed rest => simp [hd]
    | parsed a rest =>
      by_cases hf : a.action = "finish"
      · simp [hf, hd]
      · simp only [hf, if_false]
        exact ih _ _ _ (by simp [hd])

/-! ## Claims -/

/-- C2: for every agent run, the length of the returned execution trace is at
most the configured `max_iterations`, in every terminal outcome (success,
failure, budget exhaustion). -/
theorem trace_length_le_max_iterations (reg : List Tool) (cfg : LoopCfg)
    (goal : String) (turns : List String) :
    (runAgent reg cfg goal turns).steps.length ≤ cfg.maxIterations := by
  have h := runLoop_length reg cfg goal cfg.maxIterations turns 0 []
  simpa [runAgent] using h

/-- C5: the arithmetic evaluator on `"2**10 + sqrt(144)"` returns success
with result string `"1036"`. -/
theorem calculator_pow_sqrt_example :
    Tool.execute calculatorTool [("expression", JsonVal.str "2**10 + sqrt(144)")] =
      { success := true, result := some "1036", error := none } := by
  decide

/-- C1: when the model's reasoning turn parses to the reserved `finish`
action carrying `\x7b"answer": X\x7d` (i.e. the turn contains `Action: finish`
with that `Action Input`, as honored by the parser's first-marker policy),
the run terminates immediately with `success = true` and
`final_answer = X`, for every remaining iteration budget of at least one;
the finishing step is recorded with `status = completed`. -/
theorem finish_action_terminates_run (reg : List Tool) (retries maxIter : Nat)
    (goal t answer : String) (rest : List String) (a : ParsedAction)
    (hparse : parseAction (regFirstReq reg) t = some a)
    (hfin : a.action = "finish")
    (hans : a.input.lookup "answer" = some (JsonVal.str answer))
    (hbudget : 1 ≤ maxIter) :
    (runAgent reg ⟨maxIter, retries⟩ goal (t :: rest)).success = true ∧
    (runAgent reg ⟨maxIter, retries⟩ goal (t :: rest)).final_answer = some answer ∧
    ∃ st, (runAgent reg ⟨maxIter, retries⟩ goal (t :: rest)).steps = [st] ∧
      st.status = StepStatus.completed ∧ st.action = some "finish" := by
  obtain ⟨k, rfl⟩ : ∃ k, maxIter = k + 1 := ⟨maxIter - 1, by omega⟩
  have hps := planStep_of_parsed reg t rest a retries hparse
  simp only [runAgent, runLoop, hps, hfin, if_true, answerOf, hans]
  refine ⟨trivial, trivial, ?_⟩
  exact ⟨_, rfl, rfl, rfl⟩

/-- A closed instance of C1's hypotheses: the canonical finishing turn parses
to the `finish` action with the given answer, and the run then terminates
successfully with that answer and one completed step. -/
theorem finish_action_terminates_run_witness :
    parseAction (regFirstReq [calculatorTool])
        "Thought: done\nAction: finish\nAction Input: \x7b\x22answer\x22: \x221024\x22\x7d" =
      some { thought := "done", action := "finish",
             input := [("answer", JsonVal.str "1024")] } ∧
    ((runAgent [calculatorTool] ⟨7, 2⟩ "What is 2**10?"
        ["Thought: done\nAction: finish\nAction Input: \x7b\x22answer\x22: \x221024\x22\x7d"]).success = true ∧
      (runAgent [calculatorTool] ⟨7, 2⟩ "What is 2**10?"
        ["Thought: done\nAction: finish\nAction Input: \x7b\x22answer\x22: \x221024\x22\x7d"]).final_answer = some "1024" ∧
      ∃ st, (runAgent [calculatorTool] ⟨7, 2⟩ "What is 2**10?"
        ["Thought: done\nAction: finish\nAction Input: \x7b\x22answer\x22: \x221024\x22\x7d"]).steps = [st] ∧
        st.status = StepStatus.completed ∧ st.action = some "finish") :=
  ⟨by decide,
   finish_action_terminates_run [calculatorTool] 2 7 "What is 2**10?"
     "Thought: done\nAction: finish\nAction Input: \x7b\x22answer\x22: \x221024\x22\x7d" "1024" []
     { thought := "done", action := "finish", input := [("answer", JsonVal.str "1024")] }
     (by decide) rfl (by decide) (by omega)⟩

/-- C7: a model turn containing neither an `Action:` marker nor a `Finish:`
marker fails to parse — the parser returns the failure value rather than
raising — and the loop treats this as recoverable: with retries remaining,
the planning phase re-prompts (consumes the next model turn) instead of
producing a fatal outcome. -/
theorem unparseable_turn_is_recoverable (text : String)
    (hA : hasMarker text "Action:" = false)
    (hF : hasMarker text "Finish:" = false) :
    (∀ fr : String → Option String, parseAction fr text = none) ∧
    (∀ (reg : List Tool) (fuel : Nat) (rest : List String),
      planStep reg (fuel + 1) (text :: rest) = planStep reg fuel rest) := by
  have hA' : findMarker "Action:" text = none := by
    simpa [hasMarker, Option.isSome_iff_exists] using hA
  have hF' : findMarker "Finish:" text = none := by
    simpa [hasMarker, Option.isSome_iff_exists] using hF
  have hp : ∀ fr : String → Option String, parseAction fr text = none := by
    intro fr
    simp [parseAction, hA', hF']
  exact ⟨hp, fun reg fuel rest => by simp [planStep, hp]⟩

/-- A closed instance of C7's hypotheses: a concrete marker-free turn parses
to the failure value, and a planning phase with one retry left skips it. -/
theorem unparseable_turn_is_recoverable_witness :
    (∀ fr : String → Option String,
      parseAction fr "I am not sure what to do next." = none) ∧
    (∀ (reg : List Tool) (fuel : Nat) (rest : List String),
      planStep reg (fuel + 1) ("I am not sure what to do next." :: rest) =
        planStep reg fuel rest) :=
  unparseable_turn_is_recoverable "I am not sure what to do next."
    (by decide) (by decide)

/-- C8 (counterexample): a concrete successful run whose metadata map has no
`iteration_count` key — the map's keys are `iterations` (the README's
response shape, part_000 lines 676–680) and `goal`. -/
theorem metadata_has_no_iteration_count_key :
    ((runAgent [calculatorTool] ⟨3, 1⟩ "What is the factorial of 5?"
        ["Thought: done\nAction: finish\nAction Input: \x7b\x22answer\x22: \x22120\x22\x7d"]).metadata.lookup
      "iteration_count" = none) ∧
    ((runAgent [calculatorTool] ⟨3, 1⟩ "What is the factorial of 5?"
        ["Thought: done\nAction: finish\nAction Input: \x7b\x22answer\x22: \x22120\x22\x7d"]).metadata.lookup
      "iterations" = some "1") := by
  decide

/-- C8 (amended): every agent run result carries a metadata map whose keys
are `iterations` and `goal`, where `iterations` is the number of iterations
performed (one recorded step per iteration) and `goal` is the goal the run
was invoked with. -/
theorem metadata_iterations_and_goal (reg : List Tool) (cfg : LoopCfg)
    (goal : String) (turns : List String) :
    (runAgent reg cfg goal turns).metadata =
      [("iterations", toString (runAgent reg cfg goal turns).steps.length),
       ("goal", goal)] := by
  have h := runLoop_metadata reg cfg goal cfg.maxIterations turns 0 [] rfl
  simpa [runAgent, mkMeta] using h

/-- C4: any expression containing an identifier outside the allow-list
(`sqrt, sin, cos, tan, log, exp, pi, e`) is rejected by the calculator with
`success = false` — the rejection result is produced by the identifier scan,
before any tokenization or evaluation. -/
theorem calculator_rejects_disallowed_identifiers (expr : String)
    (h : ∃ id ∈ identsOf expr, id ∉ allowedIdents) :
    Tool.execute calculatorTool [("expression", JsonVal.str expr)] =
      { success := false, result := none,
        error := some "Expression contains disallowed identifiers" } := by
  obtain ⟨id, hmem, hnot⟩ := h
  have hall : ((identsOf expr).all fun i => allowedIdents.contains i) = false := by
    rcases hal : (identsOf expr).all fun i => allowedIdents.contains i with _ | _
    · rfl
    · exfalso
      exact hnot (by simpa using List.all_eq_true.mp hal id hmem)
  simp [Tool.execute, findInvalidParam, paramViolated, calculatorTool,
    JsonVal.matchesType, calcEval, hall]
  intro hcontra
  exact absurd (hcontra id hmem) hnot

/-- A closed instance of C4's hypothesis: `"import os"` contains identifiers
(`import`, `os`) outside the allow-list, and the calculator rejects it. -/
theorem calculator_rejects_disallowed_identifiers_witness :
    (∃ id ∈ identsOf "import os", id ∉ allowedIdents) ∧
    Tool.execute calculatorTool [("expression", JsonVal.str "import os")] =
      { success := false, result := none,
        error := some "Expression contains disallowed identifiers" } :=
  ⟨by decide, calculator_rejects_disallowed_identifiers "import os" (by decide)⟩

/-- C6: for every tool and argument map violating a declared required
parameter (missing, or present with an incompatible type), `execute` returns
`ToolResult\x7bsuccess:false, error: "<parameter> is required"\x7d` for some
violated required parameter, without performing the tool's work — the result
is independent of the tool's `run` body — and without raising (it is a total
function into `ToolResult`). -/
theorem execute_validates_required_params (t : Tool)
    (args : List (String × JsonVal))
    (h : ∃ p ∈ t.params, paramViolated args p = true) :
    ∃ p ∈ t.params, p.required = true ∧
      Tool.execute t args =
        { success := false, result := none, error := some (p.name ++ " is required") } ∧
      ∀ otherRun, Tool.execute { t with run := otherRun } args = Tool.execute t args := by
  have hsome : (t.params.find? (paramViolated args)).isSome := by
    rw [List.find?_isSome]
    obtain ⟨p, hp, hv⟩ := h
    exact ⟨p, hp, hv⟩
  obtain ⟨p₀, hfind⟩ := Option.isSome_iff_exists.mp hsome
  have hmem : p₀ ∈ t.params := List.mem_of_find?_eq_some hfind
  have hviol : paramViolated args p₀ = true := List.find?_some hfind
  have hreq : p₀.required = true := by
    have hv := hviol
    unfold paramViolated at hv
    rw [Bool.and_eq_true] at hv
    exact hv.1
  refine ⟨p₀, hmem, hreq, ?_, ?_⟩
  · simp [Tool.execute, findInvalidParam, hfind]
  · intro otherRun
    simp [Tool.execute, findInvalidParam, hfind]

/-- A closed instance of C6's hypothesis: the calculator invoked with an
empty argument map violates its required `expression` parameter, and
`execute` reports `"expression is required"` without running the tool. -/
theorem execute_validates_required_params_witness :
    (∃ p ∈ calculatorTool.params, paramViolated [] p = true) ∧
    (∃ p ∈ calculatorTool.params, p.required = true ∧
      Tool.execute calculatorTool [] =
        { success := false, result := none, error := some (p.name ++ " is required") } ∧
      ∀ otherRun,
        Tool.execute { calculatorTool with run := otherRun } [] =
          Tool.execute calculatorTool []) :=
  ⟨by decide, execute_validates_required_params calculatorTool [] (by decide)⟩

/-- C3: a snippet that never terminates on its own (no step count makes the
interpreter finish it) makes the sandboxed execution tool return
`ToolResult` with `success = false` and the timeout error — the call itself
returns, so no worker outlives it in this sequential model — and within an
agent run the timeout is a recoverable observation: the step is recorded
`observing` with the timeout message and the run continues (here to a
successful finish on the next turn) instead of ending. -/
theorem python_repl_timeout_recoverable
    (interp : String → Nat → Option String) (tfuel : Nat) (c : String)
    (hdiv : ∀ n, interp c n = none)
    (reg : List Tool)
    (hget : registryGet reg "python_repl" = some (pythonReplTool interp tfuel))
    (goal t u : String) (rest : List String) (a b : ParsedAction)
    (k retries : Nat)
    (hpt : parseAction (regFirstReq reg) t = some a)
    (ha : a.action = "python_repl")
    (hai : a.input = [("code", JsonVal.str c)])
    (hpu : parseAction (regFirstReq reg) u = some b)
    (hb : b.action = "finish") :
    Tool.execute (pythonReplTool interp tfuel) [("code", JsonVal.str c)] =
      { success := false, result := none, error := some timeoutMsg } ∧
    (runAgent reg ⟨k + 2, retries⟩ goal (t :: u :: rest)).success = true ∧
    ∃ s₁ s₂, (runAgent reg ⟨k + 2, retries⟩ goal (t :: u :: rest)).steps = [s₁, s₂] ∧
      s₁.action = some "python_repl" ∧ s₁.status = StepStatus.observing ∧
      s₁.observation = some ("Error: " ++ timeoutMsg) ∧
      s₂.status = StepStatus.completed := by
  have htool : Tool.execute (pythonReplTool interp tfuel) [("code", JsonVal.str c)] =
      { success := false, result := none, error := some timeoutMsg } := by
    simp [Tool.execute, findInvalidParam, paramViolated, pythonReplTool,
      JsonVal.matchesType, List.lookup, hdiv]
  refine ⟨htool, ?_⟩
  have h1 := planStep_of_parsed reg t (u :: rest) a retries hpt
  have h2 := planStep_of_parsed reg u rest b retries hpu
  have hne : ¬("python_repl" = "finish") := by decide
  simp only [runAgent, show k + 2 = k + 1 + 1 from rfl, runLoop, h1, h2, ha, hai,
    hb, hget, htool, if_true, if_neg hne, List.nil_append]
  exact ⟨trivial, _, _, rfl, rfl, rfl, rfl, rfl⟩

/-- A closed instance of C3's hypotheses: the infinite-loop snippet times
out with `success = false`, and the two-turn run (timeout observation, then
finish) succeeds with the first step recorded `observing`. -/
theorem python_repl_timeout_recoverable_witness :
    (∀ n, loopInterp "while True: pass" n = none) ∧
    (Tool.execute (pythonReplTool loopInterp 10)
        [("code", JsonVal.str "while True: pass")] =
      { success := false, result := none, error := some timeoutMsg } ∧
    (runAgent replDemoReg ⟨0 + 2, 1⟩ "run it" (replTurn :: finishTurn :: [])).success = true ∧
    ∃ s₁ s₂, (runAgent replDemoReg ⟨0 + 2, 1⟩ "run it"
        (replTurn :: finishTurn :: [])).steps = [s₁, s₂] ∧
      s₁.action = some "python_repl" ∧ s₁.status = StepStatus.observing ∧
      s₁.observation = some ("Error: " ++ timeoutMsg) ∧
      s₂.status = StepStatus.completed) :=
  ⟨fun _ => rfl,
   python_repl_timeout_recoverable loopInterp 10 "while True: pass" (fun _ => rfl)
     replDemoReg rfl "run it" replTurn finishTurn []
     { thought := "run", action := "python_repl",
       input := [("code", JsonVal.str "while True: pass")] }
     { thought := "done", action := "finish",
       input := [("answer", JsonVal.str "done")] }
     0 1 (by decide) rfl rfl (by decide) rfl⟩

/-- C9: the agent path never streams — with the agent toggle enabled,
`handleSend` invokes the non-streaming chat call exactly once (the call list
is exactly `[chatCall]`) and attaches the response's `agent_steps` to the
appended assistant message; the streaming call is made only when the agent
toggle is disabled (and then the non-streaming call is never made). -/
theorem agent_path_uses_non_streaming_chat (st : ChatPageState)
    (content now : String) (tick : Nat) (backend : BackendBehavior) :
    (st.enableAgent = true →
      (handleSend st content now tick backend).2 = [ApiCall.chatCall] ∧
      ∀ resp, backend.chatResult = Except.ok resp →
        ((handleSend st content now tick backend).1.messages.getLast?.map
          fun m => m.agent_steps) = some resp.agent_steps) ∧
    (ApiCall.chatStreamCall ∈ (handleSend st content now tick backend).2 →
      st.enableAgent = false) ∧
    (st.enableAgent = false →
      (handleSend st content now tick backend).2 = [ApiCall.chatStreamCall]) := by
  cases hag : st.enableAgent with
  | false =>
    refine ⟨fun hcontra => absurd hcontra (by decide), ?_, ?_⟩
    · intro _; rfl
    · intro _; simp [handleSend, hag]
  | true =>
    refine ⟨?_, ?_, fun hcontra => absurd hcontra (by decide)⟩
    · intro _
      cases hres : backend.chatResult with
      | ok resp =>
        refine ⟨by simp [handleSend, hag, hres], ?_⟩
        intro resp' hresp'
        cases hresp'
        simp [handleSend, hag, hres]
      | error e =>
        refine ⟨by simp [handleSend, hag, hres], ?_⟩
        intro resp' hresp'
        exact absurd hresp' (by simp)
    · intro hmem
      exfalso
      cases hres : backend.chatResult with
      | ok resp => simp [handleSend, hag, hres] at hmem
      | error e => simp [handleSend, hag, hres] at hmem

/-- A closed instance of C9's hypotheses: with the agent enabled and a
successful backend response, the submission makes exactly one non-streaming
chat call and the appended message carries the returned agent steps. -/
theorem agent_path_uses_non_streaming_chat_witness :
    (handleSend demoState "hi" "t0" 1 demoBackend).2 = [ApiCall.chatCall] ∧
    ((handleSend demoState "hi" "t0" 1 demoBackend).1.messages.getLast?.map
      fun m => m.agent_steps) = some demoResponse.agent_steps :=
  ⟨((agent_path_uses_non_streaming_chat demoState "hi" "t0" 1 demoBackend).1 rfl).1,
   ((agent_path_uses_non_streaming_chat demoState "hi" "t0" 1 demoBackend).1 rfl).2
     demoResponse rfl⟩

/-- C10: `clearChat` empties the message list and resets only the active
conversation's `title` and `lastMessage` to their initial values; every
other conversation is left unchanged (and the active one keeps its `id` and
`timestamp`), as are the selected model, the agent toggle, and the
connection state. -/
theorem clearChat_resets_only_active (st : ChatPageState) :
    (clearChat st).messages = [] ∧
    (clearChat st).selectedModel = st.selectedModel ∧
    (clearChat st).enableAgent = st.enableAgent ∧
    (clearChat st).isConnected = st.isConnected ∧
    (clearChat st).conversations.length = st.conversations.length ∧
    ∀ (i : Nat) (c c' : Conversation),
      st.conversations[i]? = some c →
      (clearChat st).conversations[i]? = some c' →
      (c'.id = c.id ∧ c'.timestamp = c.timestamp) ∧
      (c.id = st.activeConversation →
        c'.title = "New Conversation" ∧ c'.lastMessage = "Start chatting...") ∧
      (c.id ≠ st.activeConversation → c' = c) := by
  refine ⟨rfl, rfl, rfl, rfl, by simp [clearChat], ?_⟩
  intro i c c' hc hc'
  have hmap : (clearChat st).conversations[i]? = (st.conversations[i]?).map
      fun conv =>
        if conv.id = st.activeConversation then
          { conv with title := "New Conversation", lastMessage := "Start chatting..." }
        else conv := by
    simp only [clearChat, List.getElem?_map]
  rw [hmap, hc] at hc'
  simp only [Option.map_some'] at hc'
  by_cases hacq : c.id = st.activeConversation
  · rw [if_pos hacq] at hc'
    cases hc'
    exact ⟨⟨rfl, rfl⟩, fun _ => ⟨rfl, rfl⟩, fun hne => absurd hacq hne⟩
  · rw [if_neg hacq] at hc'
    cases hc'
    exact ⟨⟨rfl, rfl⟩, fun heq => absurd heq hacq, fun _ => rfl⟩

/-- A closed instance of C10's hypotheses: on a state with an active and an
inactive conversation, `clearChat` resets the active one and leaves the
inactive one untouched. -/
theorem clearChat_resets_only_active_witness :
    (clearChat demoState).messages = [] ∧
    ((clearChat demoState).conversations[1]? = some otherConversation ∧
      (clearChat demoState).conversations[0]?.map (fun c => c.title) =
        some "New Conversation") :=
  ⟨(clearChat_resets_only_active demoState).1,
   by
    refine ⟨?_, ?_⟩
    · have h0 := (clearChat_resets_only_active demoState).2.2.2.2.2 1
        otherConversation
      cases hx : (clearChat demoState).conversations[1]? with
      | none => exact absurd hx (by decide)
      | some c' =>
        have hc := (h0 c' rfl hx).2.2 (by decide)
        exact congrArg some hc
    · cases hy : (clearChat demoState).conversations[0]? with
      | none => exact absurd hy (by decide)
      | some c0 =>
        have h1 := (clearChat_resets_only_active demoState).2.2.2.2.2 0
          demoConversation c0 rfl hy
        simp [(h1.2.1 rfl).1]⟩

end Cortex

